import Mathlib

/-
Verification development for the Let'sCode execution engine.

Shallow embedding of the TypeScript sources:
  - packages/shared/src/types.ts            (data model)
  - judge-engine (JudgeEngine)              : evaluate / runTestCase / compareOutput / normalize
  - container-orchestrator (ContainerOrchestrator) : executeInContainer / collectOutput
  - packages/backend/src/execution/strategy-router.ts : analyzeCode / selectStrategy
  - packages/backend/src/execution/execution-controller.ts : submit / runCustomTest / processSubmission

Modelling conventions:
  - JavaScript strings are identified with their sequences of characters
    (List Char); machine numbers that are always non-negative integers in
    the source are Nat; the fractional constants 0.5 / 0.8 / 0.001 / 0.0005
    are rationals.
  - JavaScript Math.max over a possibly empty argument list is modelled in
    WithBot Nat, with the bottom element standing for -Infinity
    (the value of Math.max() with no arguments).
  - async functions that can reject are modelled with Except String;
    the external effects of a controller call (docker, redis, database)
    are modelled by explicit state passing and an emitted event trace.
-/

/-! ## Shared types (packages/shared/src/types.ts) -/

/-- types.ts: SupportedLanguage. -/
inductive SupportedLanguage
  | javascript
  | python
  | cpp
  | rust
deriving DecidableEq

/-- types.ts: SubmissionStatus. -/
inductive SubmissionStatus
  | Queued
  | Running
  | Judging
  | Completed
  | Failed
  | Cancelled
deriving DecidableEq

/-- types.ts: VerdictStatus (the judge verdict kinds). -/
inductive VerdictStatus
  | Accepted
  | WrongAnswer
  | TimeLimitExceeded
  | MemoryLimitExceeded
  | RuntimeError
  | CompilationError
  | SecurityViolation
  | SystemError
deriving DecidableEq

/-- types.ts: ComparisonMode. -/
structure ComparisonMode where
  trimWhitespace : Bool
  ignoreTrailingSpaces : Bool
  ignoreEmptyLines : Bool
deriving DecidableEq

/-- types.ts: ExecutionStrategyType. -/
inductive ExecutionStrategyType
  | client
  | server
  | hybrid
deriving DecidableEq

/-- types.ts: ExecutionStrategy.  estimatedCost is a fractional dollar
amount in the source (0, 0.001, 0.0005), hence a rational here. -/
structure ExecutionStrategy where
  type : ExecutionStrategyType
  reason : String
  estimatedCost : ℚ
  estimatedLatency : Nat
deriving DecidableEq

/-- types.ts: Complexity component of CodeAnalysis. -/
inductive Complexity
  | low
  | medium
  | high
deriving DecidableEq

/-- types.ts: CodeAnalysis. -/
structure CodeAnalysis where
  complexity : Complexity
  hasUnsafeOperations : Bool
  estimatedMemory : Nat
  estimatedCPU : Nat
  requiresCompilation : Bool
  canRunInBrowser : Bool
deriving DecidableEq

/-- types.ts: ResourceLimits. -/
structure ResourceLimits where
  timeLimit : Nat
  memoryLimit : Nat
  cpuQuota : Nat
  pidsLimit : Nat
deriving DecidableEq

/-- types.ts: ExecutionResult.  Optional fields of the TS interface become
Option. -/
structure ExecutionResult where
  success : Bool
  output : Option String
  error : Option String
  verdict : Option VerdictStatus
  executionTime : Option Nat
  memoryUsed : Option Nat
  exitCode : Option Int
deriving DecidableEq

/-- types.ts: TestCase. -/
structure TestCase where
  id : String
  input : String
  expectedOutput : String
  timeLimit : Nat
  memoryLimit : Nat
  isHidden : Bool
deriving DecidableEq

/-- types.ts: TestCaseResult. -/
structure TestCaseResult where
  testCaseNumber : Nat
  passed : Bool
  verdict : VerdictStatus
  executionTime : Nat
  memoryUsed : Nat
  actualOutput : Option String
  error : Option String
deriving DecidableEq

/-- types.ts: Verdict.  maxTime / maxMemory are produced by
Math.max(...results) in the source, which yields -Infinity on an empty
argument list, hence WithBot Nat here. -/
structure Verdict where
  status : VerdictStatus
  passedTests : Nat
  totalTests : Nat
  maxTime : WithBot Nat
  maxMemory : WithBot Nat
  failedTestCase : Option Nat
  errorMessage : Option String
deriving DecidableEq

/-- types.ts: SystemMetrics.  serverLoad is compared with 0.8 in the
router, hence a rational. -/
structure SystemMetrics where
  serverLoad : ℚ
  queueDepth : Nat
  availableWorkers : Nat
  avgResponseTime : Nat
deriving DecidableEq

/-- types.ts: SubmissionRequest. -/
structure SubmissionRequest where
  code : String
  language : SupportedLanguage
  problemId : String
  userId : String
  isCustomTest : Bool
  customInput : Option String
deriving DecidableEq

/-- types.ts: Submission (Date fields become Nat timestamps supplied by the
caller). -/
structure Submission where
  id : String
  userId : String
  problemId : String
  code : String
  language : SupportedLanguage
  status : SubmissionStatus
  verdict : Option Verdict
  createdAt : Nat
  startedAt : Option Nat
  completedAt : Option Nat
  executionStrategy : ExecutionStrategy
  testResults : List TestCaseResult
deriving DecidableEq

/-! ## String helpers shared by the judge and the router

JavaScript's WhiteSpace plus LineTerminator set (the characters trimmed by
String.prototype.trim and matched by the regex class \s). -/

/-- The characters JavaScript treats as whitespace for trim / trimEnd /
the regex class backslash-s. -/
def isJsWhitespace (c : Char) : Bool :=
  c == ' ' || c == '\t' || c == '\n' || c == '\x0b' || c == '\x0c' ||
  c == '\r' || c == '\u00a0' || c == '\u1680' ||
  ('\u2000' ≤ c && c ≤ '\u200a') || c == '\u2028' || c == '\u2029' ||
  c == '\u202f' || c == '\u205f' || c == '\u3000' || c == '\ufeff'

/-- JS String.prototype.trim on a character sequence. -/
def trimChars (l : List Char) : List Char :=
  ((l.dropWhile isJsWhitespace).reverse.dropWhile isJsWhitespace).reverse

/-- JS String.prototype.trimEnd on a character sequence. -/
def trimEndChars (l : List Char) : List Char :=
  (l.reverse.dropWhile isJsWhitespace).reverse

/-- JS String.prototype.split with a single-character separator:
the empty string splits to one empty field, and every separator occurrence
opens a new field. -/
def splitOnChar (sep : Char) : List Char → List (List Char)
  | [] => [[]]
  | c :: rest =>
    if c == sep then [] :: splitOnChar sep rest
    else
      match splitOnChar sep rest with
      | h :: t => (c :: h) :: t
      | [] => [[c]]

/-! ## JudgeEngine (judge-engine source file) -/

/-- JudgeEngine.normalize, operating on the character sequence of the
output: optional whole-string trim, then optional per-line trimEnd, then
optional removal of blank lines; lines are joined back with newlines
exactly as Array.prototype.join does. -/
def normalizeChars (l : List Char) (mode : ComparisonMode) : List Char :=
  let n1 := if mode.trimWhitespace then trimChars l else l
  let n2 :=
    if mode.ignoreTrailingSpaces then
      List.intercalate ['\n'] ((splitOnChar '\n' n1).map trimEndChars)
    else n1
  let n3 :=
    if mode.ignoreEmptyLines then
      List.intercalate ['\n']
        ((splitOnChar '\n' n2).filter (fun ln => (trimChars ln).length > 0))
    else n2
  n3

/-- JudgeEngine.normalize on strings.  (Named normalizeOutput because
Mathlib already declares a root-level normalize.) -/
def normalizeOutput (s : String) (mode : ComparisonMode) : String :=
  String.mk (normalizeChars s.data mode)

/-- JudgeEngine.compareOutput: normalize both sides identically, then
compare for equality. -/
def compareOutput (actual expected : String) (mode : ComparisonMode) : Bool :=
  normalizeOutput actual mode == normalizeOutput expected mode

/-- The comparison-mode literal the judge passes at its call site in
runTestCase. -/
def judgeMode : ComparisonMode :=
  { trimWhitespace := true, ignoreTrailingSpaces := true, ignoreEmptyLines := false }

/-- JS truthiness test used by runTestCase:
result.executionTime && result.executionTime > testCase.timeLimit.
An absent or zero executionTime is falsy, so the time check is skipped. -/
def jsTruthyGt (t : Option Nat) (limit : Nat) : Bool :=
  match t with
  | some v => v != 0 && limit < v
  | none => false

/-- JudgeEngine.runTestCase.  The awaited executeFunction outcome is passed
in as an Except: Except.error models the promise rejecting (the catch
branch of the source); Except.ok carries the ExecutionResult. -/
def runTestCase (tc : TestCase) (res : Except String ExecutionResult)
    (testNumber : Nat) : TestCaseResult :=
  match res with
  | Except.error msg =>
    { testCaseNumber := testNumber, passed := false,
      verdict := VerdictStatus.RuntimeError,
      executionTime := 0, memoryUsed := 0,
      actualOutput := none, error := some msg }
  | Except.ok result =>
    if !result.success then
      { testCaseNumber := testNumber, passed := false,
        verdict := result.verdict.getD VerdictStatus.RuntimeError,
        executionTime := result.executionTime.getD 0,
        memoryUsed := result.memoryUsed.getD 0,
        actualOutput := none, error := result.error }
    else if jsTruthyGt result.executionTime tc.timeLimit then
      { testCaseNumber := testNumber, passed := false,
        verdict := VerdictStatus.TimeLimitExceeded,
        executionTime := result.executionTime.getD 0,
        memoryUsed := result.memoryUsed.getD 0,
        actualOutput := none, error := none }
    else
      let outputMatches := compareOutput (result.output.getD "") tc.expectedOutput judgeMode
      { testCaseNumber := testNumber, passed := outputMatches,
        verdict := if outputMatches then VerdictStatus.Accepted else VerdictStatus.WrongAnswer,
        executionTime := result.executionTime.getD 0,
        memoryUsed := result.memoryUsed.getD 0,
        actualOutput := result.output, error := none }

/-- JavaScript Math.max over a list of numbers: -Infinity (bottom) when the
list is empty. -/
def jsMax (l : List Nat) : WithBot Nat :=
  l.foldr (fun n m => max ((n : Nat) : WithBot Nat) m) ⊥

/-- JudgeEngine.generateVerdict.  When allPassed is false the source
dereferences firstFailure with a non-null assertion; the find? cannot be
none there, and the none branch below is dead code kept only for
totality. -/
def generateVerdict (results : List TestCaseResult) (totalTests : Nat) : Verdict :=
  if results.all (fun r => r.passed) then
    { status := VerdictStatus.Accepted,
      passedTests := results.length, totalTests := totalTests,
      maxTime := jsMax (results.map (fun r => r.executionTime)),
      maxMemory := jsMax (results.map (fun r => r.memoryUsed)),
      failedTestCase := none, errorMessage := none }
  else
    match results.find? (fun r => !r.passed) with
    | some firstFailure =>
      { status := firstFailure.verdict,
        passedTests := (results.filter (fun r => r.passed)).length,
        totalTests := totalTests,
        maxTime := jsMax (results.map (fun r => r.executionTime)),
        maxMemory := jsMax (results.map (fun r => r.memoryUsed)),
        failedTestCase := some firstFailure.testCaseNumber,
        errorMessage := firstFailure.error }
    | none =>
      { status := VerdictStatus.SystemError, passedTests := 0,
        totalTests := totalTests, maxTime := ⊥, maxMemory := ⊥,
        failedTestCase := none, errorMessage := none }

/-- The test-case loop of JudgeEngine.evaluate: run the cases in order,
numbering from the given start index, and stop after the first result whose
passed flag is false. -/
def runTests (execFn : String → Except String ExecutionResult) :
    List TestCase → Nat → List TestCaseResult
  | [], _ => []
  | tc :: rest, i =>
    let r := runTestCase tc (execFn tc.input) i
    if r.passed then r :: runTests execFn rest (i + 1) else [r]

/-- JudgeEngine.evaluate: run the cases (numbered from 1) with
stop-on-first-failure, then aggregate with generateVerdict. -/
def evaluate (execFn : String → Except String ExecutionResult)
    (testCases : List TestCase) : Verdict :=
  generateVerdict (runTests execFn testCases 1) testCases.length

/-- Whether the judge would mark a test case as passed under the given
executor; runTestCase's passed flag does not depend on the case number. -/
def casePasses (execFn : String → Except String ExecutionResult)
    (tc : TestCase) : Bool :=
  (runTestCase tc (execFn tc.input) 1).passed

/-- The per-case results of a run of consecutively numbered test cases
with no early stop: what the judge loop produces on a prefix of cases that
all pass. -/
def prefixResults (execFn : String → Except String ExecutionResult) :
    List TestCase → Nat → List TestCaseResult
  | [], _ => []
  | tc :: rest, i =>
    runTestCase tc (execFn tc.input) i :: prefixResults execFn rest (i + 1)

/-! ## ContainerOrchestrator (container-orchestrator source file)

executeInContainer writes code and input into the container, starts an
exec, and awaits collectOutput.  collectOutput arms a timer at
limits.timeLimit; the stream either ends in time (resolving with the
accumulated stdout/stderr), raises an error in time (rejecting with that
error), or the timer fires first and the promise rejects with
Error('Time Limit Exceeded').  The stream is abstracted by its observable
behaviour below; a tie between the timer and the stream is resolved in
favour of the stream. -/

/-- Observable behaviour of the dockerode exec stream awaited by
collectOutput: it ends at a wall-clock instant with accumulated
stdout/stderr, raises an error at an instant, or never settles. -/
inductive StreamBehavior
  | ends (endsAt : Nat) (stdout stderr : String)
  | fails (failsAt : Nat) (msg : String)
  | hangs

/-- ContainerOrchestrator.collectOutput: race the stream against a timer of
timeout milliseconds; the timer path rejects with the message
Time Limit Exceeded. -/
def collectOutput (b : StreamBehavior) (timeout : Nat) :
    Except String (String × String) :=
  match b with
  | StreamBehavior.ends t out err =>
    if t ≤ timeout then Except.ok (out, err) else Except.error "Time Limit Exceeded"
  | StreamBehavior.fails t msg =>
    if t ≤ timeout then Except.error msg else Except.error "Time Limit Exceeded"
  | StreamBehavior.hangs => Except.error "Time Limit Exceeded"

/-- The part of an executeInContainer call that can reject: the setup
steps before collectOutput (writeToContainer, container.exec), or the
awaited stream itself. -/
inductive ExecOutcome
  | ran (b : StreamBehavior)
  | setupFailed (msg : String)

/-- ContainerOrchestrator.executeInContainer: on any rejection the catch
branch returns success false with verdict Runtime Error and the rejection
message as error; on resolution it returns success true with the collected
stdout/stderr, memoryUsed 0 and exitCode 0.  elapsed is the wall-clock
Date.now() difference measured by the source. -/
def executeInContainer (limits : ResourceLimits) (o : ExecOutcome)
    (elapsed : Nat) : ExecutionResult :=
  match o with
  | ExecOutcome.setupFailed msg =>
    { success := false, output := none, error := some msg,
      verdict := some VerdictStatus.RuntimeError,
      executionTime := some elapsed, memoryUsed := none, exitCode := none }
  | ExecOutcome.ran b =>
    match collectOutput b limits.timeLimit with
    | Except.ok (out, err) =>
      { success := true, output := some out, error := some err,
        verdict := none, executionTime := some elapsed,
        memoryUsed := some 0, exitCode := some 0 }
    | Except.error msg =>
      { success := false, output := none, error := some msg,
        verdict := some VerdictStatus.RuntimeError,
        executionTime := some elapsed, memoryUsed := none, exitCode := none }

/-! ## StrategyRouter (packages/backend/src/execution/strategy-router.ts)

The four unsafe-operation regexes carry the i flag; all their alternatives
except the native-import one are literal substrings, so the tests lower
both sides and look for an infix.  Lowering is ASCII (the patterns are
ASCII). -/

/-- ASCII lowering standing for String.prototype.toLowerCase under the
case-insensitive regex flag. -/
def toLowerChars (l : List Char) : List Char := l.map Char.toLower

/-- Substring test: pat occurs contiguously inside the second list. -/
def isInfixOfChars (pat : List Char) : List Char → Bool
  | [] => pat.isEmpty
  | c :: rest => pat.isPrefixOf (c :: rest) || isInfixOfChars pat rest

/-- Case-insensitive literal-substring test for one regex alternative. -/
def containsPat (codeLower : List Char) (pat : String) : Bool :=
  isInfixOfChars pat.data codeLower

/-- Regex fs\.|open\(|readFile|writeFile|fopen|fwrite with the i flag. -/
def hasFileIo (code : List Char) : Bool :=
  let lc := toLowerChars code
  ["fs.", "open(", "readfile", "writefile", "fopen", "fwrite"].any
    (fun p => containsPat lc p)

/-- Regex fetch\(|XMLHttpRequest|WebSocket|socket|http\.|requests\. with
the i flag. -/
def hasNetwork (code : List Char) : Bool :=
  let lc := toLowerChars code
  ["fetch(", "xmlhttprequest", "websocket", "socket", "http.", "requests."].any
    (fun p => containsPat lc p)

/-- Regex exec\(|spawn\(|fork\(|subprocess|system\( with the i flag. -/
def hasProcessSpawn (code : List Char) : Bool :=
  let lc := toLowerChars code
  ["exec(", "spawn(", "fork(", "subprocess", "system("].any
    (fun p => containsPat lc p)

/-- Suffix of the list just after the first occurrence of pat, if any. -/
def afterFirst (pat : List Char) : List Char → Option (List Char)
  | [] => if pat.isEmpty then some [] else none
  | c :: rest =>
    if pat.isPrefixOf (c :: rest) then some ((c :: rest).drop pat.length)
    else afterFirst pat rest

/-- One line matches import followed (with no intervening line terminator,
since the regex dot does not cross lines) by child_process. -/
def importThenChildProcess (seg : List Char) : Bool :=
  match afterFirst "import".data seg with
  | some rest => isInfixOfChars "child_process".data rest
  | none => false

/-- Regex require\(['"]child_process|import.*child_process with the i
flag: either a require( immediately followed by a quote and
child_process, or import then child_process on one line. -/
def hasNativeImports (code : List Char) : Bool :=
  let lc := toLowerChars code
  containsPat lc "require('child_process" ||
  containsPat lc "require(\"child_process" ||
  ((splitOnChar '\n' lc).any
    (fun ln => (splitOnChar '\r' ln).any importThenChildProcess))

/-- The combined unsafe-operation classification of analyzeCode. -/
def hasUnsafePatterns (code : String) : Bool :=
  hasFileIo code.data || hasNetwork code.data ||
  hasProcessSpawn code.data || hasNativeImports code.data

/-- The JS regex word-character class \w (letters, digits, underscore). -/
def isWordChar (c : Char) : Bool := c.isAlphanum || c == '_'

/-- Word boundary on the left of a candidate match: start of input or a
preceding non-word character. -/
def boundaryBefore : Option Char → Bool
  | none => true
  | some c => !isWordChar c

/-- Word boundary on the right of a candidate match: end of input or a
following non-word character. -/
def boundaryAfter : List Char → Bool
  | [] => true
  | c :: _ => !isWordChar c

/-- Try to match one keyword with word boundaries at the current position;
on success return the rest of the input after the keyword. -/
def tryWord (w : List Char) (prev : Option Char) (l : List Char) :
    Option (List Char) :=
  if boundaryBefore prev && w.isPrefixOf l && boundaryAfter (l.drop w.length) then
    some (l.drop w.length)
  else none

/-- The global scan of code.match(/\b(for|while|do)\b/g): count matches
left to right, resuming after each match.  The fuel argument (initially
the input length, an upper bound on the number of steps) makes the scan
structurally terminating; each step consumes at least one character. -/
def countLoopsAux : Nat → Option Char → List Char → Nat
  | 0, _, _ => 0
  | _ + 1, _, [] => 0
  | fuel + 1, prev, c :: rest =>
    match tryWord "for".data prev (c :: rest) with
    | some r => 1 + countLoopsAux fuel (some 'r') r
    | none =>
      match tryWord "while".data prev (c :: rest) with
      | some r => 1 + countLoopsAux fuel (some 'e') r
      | none =>
        match tryWord "do".data prev (c :: rest) with
        | some r => 1 + countLoopsAux fuel (some 'o') r
        | none => countLoopsAux fuel (some c) rest

/-- loopCount of analyzeCode (case sensitive, no i flag). -/
def countLoops (code : List Char) : Nat := countLoopsAux code.length none code

/-- One attempted match of the recursion-indicator regex
function\s+\w+\s*\([^)]*\)\s*\x7b[^}]*\1 at the current position.  The
regex has no capturing group, so in JavaScript the backreference \1 is the
legacy octal escape for the character U+0001; the pattern therefore
requires a U+0001 inside the function body prefix.  All the repeated
classes are disjoint from their successors except the final [^}]*, whose
greedy backtracking stops at the last U+0001 before the first closing
brace.  Returns the rest of the input after the match. -/
def matchRecAt (l : List Char) : Option (List Char) :=
  if "function".data.isPrefixOf l then
    let r1 := l.drop 8
    let ws1 := r1.takeWhile isJsWhitespace
    if ws1.isEmpty then none
    else
      let r2 := r1.dropWhile isJsWhitespace
      let w := r2.takeWhile isWordChar
      if w.isEmpty then none
      else
        let r3 := (r2.dropWhile isWordChar).dropWhile isJsWhitespace
        match r3 with
        | '(' :: r4 =>
          let r5 := r4.dropWhile (fun c => c != ')')
          match r5 with
          | ')' :: r6 =>
            let r7 := r6.dropWhile isJsWhitespace
            match r7 with
            | '\x7b' :: r8 =>
              let seg := r8.takeWhile (fun c => c != '\x7d')
              if seg.contains '\x01' then
                let tailLen := (seg.reverse.takeWhile (fun c => c != '\x01')).length
                some (r8.drop (seg.length - tailLen))
              else none
            | _ => none
          | _ => none
        | _ => none
  else none

/-- Global scan counting matches of the recursion-indicator regex, with
the same fuel discipline as countLoopsAux. -/
def countRecAux : Nat → List Char → Nat
  | 0, _ => 0
  | _ + 1, [] => 0
  | fuel + 1, c :: rest =>
    match matchRecAt (c :: rest) with
    | some r => 1 + countRecAux fuel r
    | none => countRecAux fuel rest

/-- recursionIndicators of analyzeCode (case sensitive). -/
def countRec (code : List Char) : Nat := countRecAux code.length code

/-- StrategyRouter.analyzeCode. -/
def analyzeCode (code : String) (language : SupportedLanguage) : CodeAnalysis :=
  let hasUnsafeOperations := hasUnsafePatterns code
  let loopCount := countLoops code.data
  let recursionIndicators := countRec code.data
  let complexity :=
    if loopCount > 5 || recursionIndicators > 2 then Complexity.high
    else if loopCount > 2 then Complexity.medium
    else Complexity.low
  let estimatedMemory := code.data.length * 100 + loopCount * 1024 * 1024
  let estimatedCPU := loopCount * 100 + recursionIndicators * 200
  let requiresCompilation :=
    language == SupportedLanguage.cpp || language == SupportedLanguage.rust
  let canRunInBrowser :=
    (language == SupportedLanguage.javascript || language == SupportedLanguage.python)
      && !hasUnsafeOperations
  { complexity := complexity, hasUnsafeOperations := hasUnsafeOperations,
    estimatedMemory := estimatedMemory, estimatedCPU := estimatedCPU,
    requiresCompilation := requiresCompilation, canRunInBrowser := canRunInBrowser }

/-- StrategyRouter.selectStrategy: the five-branch priority chain of the
source, with its literal reason strings, costs and latencies. -/
def selectStrategy (analysis : CodeAnalysis) (systemLoad : SystemMetrics) :
    ExecutionStrategy :=
  if analysis.canRunInBrowser = true ∧ analysis.hasUnsafeOperations = false ∧
      analysis.complexity = Complexity.low ∧
      analysis.estimatedMemory < 100 * 1024 * 1024 then
    { type := ExecutionStrategyType.client,
      reason := "Safe, simple code suitable for browser execution",
      estimatedCost := 0, estimatedLatency := 100 }
  else if analysis.canRunInBrowser = true ∧ analysis.hasUnsafeOperations = false ∧
      systemLoad.serverLoad > 0.8 then
    { type := ExecutionStrategyType.client,
      reason := "Server overloaded, routing to client-side",
      estimatedCost := 0, estimatedLatency := 200 }
  else if analysis.hasUnsafeOperations = true ∨ analysis.complexity = Complexity.high then
    { type := ExecutionStrategyType.server,
      reason := "Complex or unsafe code requires server-side isolation",
      estimatedCost := 0.001, estimatedLatency := 2000 }
  else if analysis.complexity = Complexity.medium then
    { type := ExecutionStrategyType.hybrid,
      reason := "Medium complexity, using pre-warmed containers",
      estimatedCost := 0.0005, estimatedLatency := 1000 }
  else
    { type := ExecutionStrategyType.server,
      reason := "Default server-side execution",
      estimatedCost := 0.001, estimatedLatency := 2000 }

/-- The five-rule selection policy exactly as the specification words it
(rule 1 writes the memory bound as 100 MiB = 100 * 2^20); used only to
compare the specified policy with the implemented one. -/
def specStrategyType (analysis : CodeAnalysis) (systemLoad : SystemMetrics) :
    ExecutionStrategyType :=
  if analysis.canRunInBrowser = true ∧ analysis.hasUnsafeOperations = false ∧
      analysis.complexity = Complexity.low ∧
      analysis.estimatedMemory < 100 * 2 ^ 20 then
    ExecutionStrategyType.client
  else if analysis.canRunInBrowser = true ∧ analysis.hasUnsafeOperations = false ∧
      systemLoad.serverLoad > 0.8 then
    ExecutionStrategyType.client
  else if analysis.hasUnsafeOperations = true ∨ analysis.complexity = Complexity.high then
    ExecutionStrategyType.server
  else if analysis.complexity = Complexity.medium then
    ExecutionStrategyType.hybrid
  else
    ExecutionStrategyType.server

/-! ## ExecutionController (execution-controller.ts)

The controller's external collaborators (SubmissionRepository, the redis
SubmissionQueue, the docker orchestrator) are modelled by explicit state
passing and an emitted event trace. -/

/-- The persistent collaborators the controller can touch: the repository
(create/update) and the submission queue. -/
structure ControllerState where
  repo : List Submission
  queue : List Submission
deriving DecidableEq

/-- Externally visible side effects of one controller call. -/
inductive ControllerEvent
  | envCreated (envId : String)
  | envDestroyed (envId : String)
  | repoCreated (subId : String)
  | repoUpdated (subId : String)
  | enqueued (subId : String)
deriving DecidableEq

/-- Events that persist submission state: repository writes and queue
insertions. -/
def isPersistenceEvent : ControllerEvent → Bool
  | ControllerEvent.repoCreated _ => true
  | ControllerEvent.repoUpdated _ => true
  | ControllerEvent.enqueued _ => true
  | _ => false

/-- The Submission record built by ExecutionController.submit before
repository.create and queue.enqueue. -/
def mkSubmission (req : SubmissionRequest) (newId : String)
    (strategy : ExecutionStrategy) (now : Nat) : Submission :=
  { id := newId, userId := req.userId, problemId := req.problemId,
    code := req.code, language := req.language,
    status := SubmissionStatus.Queued, verdict := none,
    createdAt := now, startedAt := none, completedAt := none,
    executionStrategy := strategy, testResults := [] }

/-- ExecutionController.submit.  The guard
!request.code || request.code.trim().length === 0 throws
Error('Code cannot be empty') before the id is generated and before any
repository or queue write; otherwise the code is analyzed, a strategy
selected against the hard-coded system metrics (serverLoad 0.5,
availableWorkers 10, avgResponseTime 1000, queueDepth from the queue), the
submission created, persisted and enqueued, and its id returned. -/
def submit (st : ControllerState) (req : SubmissionRequest) (newId : String)
    (now : Nat) : Except String (String × ControllerState) :=
  if req.code = "" ∨ trimChars req.code.data = [] then
    Except.error "Code cannot be empty"
  else
    let analysis := analyzeCode req.code req.language
    let systemMetrics : SystemMetrics :=
      { serverLoad := 0.5, queueDepth := st.queue.length,
        availableWorkers := 10, avgResponseTime := 1000 }
    let strategy := selectStrategy analysis systemMetrics
    let submission := mkSubmission req newId strategy now
    Except.ok (newId,
      { repo := st.repo ++ [submission], queue := st.queue ++ [submission] })

/-- The ResourceLimits literal runCustomTest passes to
executeInContainer. -/
def customTestLimits : ResourceLimits :=
  { timeLimit := 5000, memoryLimit := 512 * 1024 * 1024,
    cpuQuota := 50000, pidsLimit := 50 }

/-- The ResourceLimits literal the execute closure of processSubmission
passes to executeInContainer. -/
def processSubmissionLimits : ResourceLimits :=
  { timeLimit := 5000, memoryLimit := 512 * 1024 * 1024,
    cpuQuota := 50000, pidsLimit := 50 }

/-- The hard-coded test-case list of processSubmission. -/
def processSubmissionTestCases : List TestCase :=
  [{ id := "1", input := "5", expectedOutput := "120",
     timeLimit := 1000, memoryLimit := 256 * 1024 * 1024, isHidden := false }]

/-- The execute closure processSubmission hands to judge.evaluate: one
containerised run per input under processSubmissionLimits.  envBehaviour
gives, per test input, the observed container outcome and elapsed time.
executeInContainer never rejects (its catch returns a result), so the
closure always resolves. -/
def processSubmissionExec (envBehaviour : String → ExecOutcome × Nat) :
    String → Except String ExecutionResult :=
  fun input =>
    Except.ok (executeInContainer processSubmissionLimits
      (envBehaviour input).1 (envBehaviour input).2)

/-- The verdict computed on processSubmission's success path. -/
def processSubmissionVerdict (envBehaviour : String → ExecOutcome × Nat) : Verdict :=
  evaluate (processSubmissionExec envBehaviour) processSubmissionTestCases

/-- The first repository.update of processSubmission: status Running,
startedAt stamped. -/
def processSubmissionRunning (sub : Submission) (t1 : Nat) : Submission :=
  { sub with status := SubmissionStatus.Running, startedAt := some t1 }

/-- The realizable rejection sources of processSubmission, in program
order.  createExecutionEnvironment is awaited before the try block, so a
provisioning rejection propagates without entering the catch.  Inside the
try, judge.evaluate never rejects (runTestCase's catch absorbs every
rejection of the execute closure, executeInContainer's catch absorbs every
container error, and generateVerdict is total), so the only awaited
expression that can reject is the success-path repository.update — which
runs after submission.verdict has been assigned. -/
inductive ProcessOutcome
  | provisioningFailed (msg : String)
  | updateFailed (msg : String)
  | completed

/-- The submission state after processSubmission settles (resolves or
rejects).  On provisioning failure the catch never runs and the submission
keeps the already-persisted Running state.  On the success path the
verdict computed by the embedded judge is attached with status Completed.
When the success-path repository.update rejects, the catch runs after the
verdict was assigned: it re-stamps status Failed and completedAt and
persists that, leaving the verdict attached. -/
def processSubmissionFinal (sub : Submission)
    (envBehaviour : String → ExecOutcome × Nat) (o : ProcessOutcome)
    (t1 t2 t3 : Nat) : Submission :=
  let running := processSubmissionRunning sub t1
  match o with
  | ProcessOutcome.provisioningFailed _ => running
  | ProcessOutcome.completed =>
    { running with
      verdict := some (processSubmissionVerdict envBehaviour),
      status := SubmissionStatus.Completed, completedAt := some t2 }
  | ProcessOutcome.updateFailed _ =>
    { running with
      verdict := some (processSubmissionVerdict envBehaviour),
      status := SubmissionStatus.Failed, completedAt := some t3 }

/-- ExecutionController.runCustomTest: create an environment, execute the
code under customTestLimits, and destroy the environment in a finally
block; the repository and the queue are never touched, so the controller
state passes through unchanged and the only events are the environment
lifecycle pair. -/
def runCustomTest (st : ControllerState) (envId : String) (o : ExecOutcome)
    (elapsed : Nat) : ExecutionResult × ControllerState × List ControllerEvent :=
  (executeInContainer customTestLimits o elapsed, st,
   [ControllerEvent.envCreated envId, ControllerEvent.envDestroyed envId])

/-- The invariant claimed in the specification: a verdict is attached
exactly when the status is Completed or Failed. -/
def verdictStatusConsistent (s : Submission) : Bool :=
  s.verdict.isSome ==
    (s.status == SubmissionStatus.Completed || s.status == SubmissionStatus.Failed)

/-! ## Concrete fixtures used by witnesses and counterexamples -/

/-- A strategy value as produced by the router's default branch. -/
def strat0 : ExecutionStrategy :=
  { type := ExecutionStrategyType.server,
    reason := "Default server-side execution",
    estimatedCost := 0.001, estimatedLatency := 2000 }

/-- A queued submission with no verdict attached. -/
def sub0 : Submission :=
  { id := "s1", userId := "u1", problemId := "p1", code := "print(1)",
    language := SupportedLanguage.python, status := SubmissionStatus.Queued,
    verdict := none, createdAt := 0, startedAt := none, completedAt := none,
    executionStrategy := strat0, testResults := [] }

/-- An empty controller state. -/
def st0 : ControllerState := { repo := [], queue := [] }

/-- A whitespace-only submission request. -/
def req0 : SubmissionRequest :=
  { code := " \n", language := SupportedLanguage.javascript,
    problemId := "p1", userId := "u1", isCustomTest := false,
    customInput := none }

/-- The hard-coded test case of processSubmission, used as a concrete
test case in several witnesses. -/
def tc0 : TestCase :=
  { id := "1", input := "5", expectedOutput := "120",
    timeLimit := 1000, memoryLimit := 256 * 1024 * 1024, isHidden := false }

/-- A test case that the witness executor passes. -/
def tcPass : TestCase :=
  { id := "p", input := "1", expectedOutput := "A",
    timeLimit := 100, memoryLimit := 1024, isHidden := false }

/-- A test case that the witness executor fails (wrong expected output). -/
def tcFail : TestCase :=
  { id := "f", input := "2", expectedOutput := "B",
    timeLimit := 100, memoryLimit := 1024, isHidden := false }

/-- A deterministic executor for witnesses: always succeeds with output A,
3 ms, 4 bytes. -/
def execW : String → Except String ExecutionResult :=
  fun _ =>
    Except.ok { success := true, output := some "A", error := none,
                verdict := none, executionTime := some 3, memoryUsed := some 4,
                exitCode := some 0 }

/-- A concrete analysis value for the purity witness. -/
def analysis0 : CodeAnalysis :=
  { complexity := Complexity.low, hasUnsafeOperations := false,
    estimatedMemory := 1000, estimatedCPU := 0,
    requiresCompilation := false, canRunInBrowser := true }

/-- Concrete system metrics for the purity witness. -/
def sysm0 : SystemMetrics :=
  { serverLoad := 0.5, queueDepth := 0, availableWorkers := 10,
    avgResponseTime := 1000 }

/-- A concrete container behaviour for processSubmission witnesses: every
run ends at 10 ms with stdout 120. -/
def envB0 : String → ExecOutcome × Nat :=
  fun _ => (ExecOutcome.ran (StreamBehavior.ends 10 "120" ""), 10)


/-! ## Helper lemmas -/

/-- A string all of whose characters are JS whitespace trims to the empty
string. -/
theorem trimChars_eq_nil (l : List Char)
    (h : ∀ c ∈ l, isJsWhitespace c = true) : trimChars l = [] := by
  unfold trimChars
  have h1 : l.dropWhile isJsWhitespace = [] :=
    List.dropWhile_eq_nil_iff.mpr h
  rw [h1]
  rfl

/-- The passed flag computed by runTestCase does not depend on the test
number. -/
theorem runTestCase_passed_indep (tc : TestCase)
    (res : Except String ExecutionResult) (m n : Nat) :
    (runTestCase tc res m).passed = (runTestCase tc res n).passed := by
  cases res with
  | error msg => rfl
  | ok result => simp only [runTestCase]; split_ifs <;> rfl

/-- runTestCase stamps the supplied test number into the result. -/
theorem runTestCase_number (tc : TestCase)
    (res : Except String ExecutionResult) (n : Nat) :
    (runTestCase tc res n).testCaseNumber = n := by
  cases res with
  | error msg => rfl
  | ok result => simp only [runTestCase]; split_ifs <;> rfl

/-- Every result of a prefix of passing cases carries a true passed
flag. -/
theorem prefixResults_passed (execFn : String → Except String ExecutionResult)
    (pre : List TestCase) (i : Nat)
    (h : ∀ tc ∈ pre, casePasses execFn tc = true) :
    ∀ r ∈ prefixResults execFn pre i, r.passed = true := by
  induction pre generalizing i with
  | nil => intro r hr; cases hr
  | cons tc rest ih =>
    intro r hr
    rcases hr with _ | hr
    · rw [runTestCase_passed_indep tc (execFn tc.input) i 1]
      exact h tc (List.mem_cons_self tc rest)
    · exact ih (i + 1) (fun t ht => h t (List.mem_cons_of_mem tc ht)) r (by assumption)

/-- prefixResults has one result per case. -/
theorem prefixResults_length (execFn : String → Except String ExecutionResult)
    (pre : List TestCase) (i : Nat) :
    (prefixResults execFn pre i).length = pre.length := by
  induction pre generalizing i with
  | nil => rfl
  | cons tc rest ih => simp [prefixResults, ih]

/-- While every case passes, the judge loop keeps going: its results on
pre ++ rest are the prefix results of pre followed by the results on rest,
with the numbering shifted past pre. -/
theorem runTests_all_pass (execFn : String → Except String ExecutionResult)
    (pre rest : List TestCase) (i : Nat)
    (h : ∀ tc ∈ pre, casePasses execFn tc = true) :
    runTests execFn (pre ++ rest) i =
      prefixResults execFn pre i ++ runTests execFn rest (i + pre.length) := by
  induction pre generalizing i with
  | nil => simp [prefixResults]
  | cons tc pre ih =>
    have hpass : (runTestCase tc (execFn tc.input) i).passed = true := by
      rw [runTestCase_passed_indep tc (execFn tc.input) i 1]
      exact h tc (List.mem_cons_self tc pre)
    simp only [List.cons_append, runTests, hpass, if_true, prefixResults,
      List.append_eq]
    rw [ih (i + 1) (fun t ht => h t (List.mem_cons_of_mem tc ht))]
    simp only [List.cons_append, List.length_cons]
    have harith : i + 1 + pre.length = i + (pre.length + 1) := by omega
    rw [harith]

/-- A failing case stops the judge loop at once: it is the sole result. -/
theorem runTests_fail_head (execFn : String → Except String ExecutionResult)
    (tc : TestCase) (post : List TestCase) (i : Nat)
    (h : casePasses execFn tc = false) :
    runTests execFn (tc :: post) i = [runTestCase tc (execFn tc.input) i] := by
  have hp : (runTestCase tc (execFn tc.input) i).passed = false := by
    rw [runTestCase_passed_indep tc (execFn tc.input) i 1]
    exact h
  simp [runTests, hp]

/-- find? for the first failure skips a prefix of passing results. -/
theorem find?_skip_passing (l1 l2 : List TestCaseResult)
    (h : ∀ r ∈ l1, r.passed = true) :
    (l1 ++ l2).find? (fun r => !r.passed) = l2.find? (fun r => !r.passed) := by
  induction l1 with
  | nil => rfl
  | cons a l ih =>
    have ha : a.passed = true := h a (List.mem_cons_self a l)
    simp only [List.cons_append]
    rw [List.find?_cons_of_neg]
    · exact ih (fun r hr => h r (List.mem_cons_of_mem a hr))
    · simp [ha]

/-! ## Claim theorems -/

/-- Claim C1 (code bug exhibited).  An execution that exceeds its
configured time limit (stream still open at 5000 ms, ending only at
6000 ms, with the correct output 120) makes collectOutput reject with
the message Time Limit Exceeded, but executeInContainer's catch-all maps
every rejection to the verdict kind Runtime Error, and the judge then
reports Runtime Error — not Time Limit Exceeded — for the test case.  The
final conjunct shows that the judge's own over-limit check (success true,
executionTime 1500 over the 1000 ms case limit) does yield Time Limit
Exceeded, so the two paths promised by the claim disagree. -/
theorem timeoutYieldsRuntimeErrorNotTLE :
    (executeInContainer customTestLimits
        (ExecOutcome.ran (StreamBehavior.ends 6000 "120" "")) 6000).success = false ∧
    (executeInContainer customTestLimits
        (ExecOutcome.ran (StreamBehavior.ends 6000 "120" "")) 6000).error =
      some "Time Limit Exceeded" ∧
    (runTestCase tc0 (Except.ok (executeInContainer customTestLimits
        (ExecOutcome.ran (StreamBehavior.ends 6000 "120" "")) 6000)) 1).verdict =
      VerdictStatus.RuntimeError ∧
    (runTestCase tc0 (Except.ok (executeInContainer customTestLimits
        (ExecOutcome.ran (StreamBehavior.ends 6000 "120" "")) 6000)) 1).verdict ≠
      VerdictStatus.TimeLimitExceeded ∧
    (runTestCase tc0 (Except.ok
        { success := true, output := some "120", error := none, verdict := none,
          executionTime := some 1500, memoryUsed := some 0, exitCode := some 0 })
        1).verdict = VerdictStatus.TimeLimitExceeded := by
  refine ⟨rfl, rfl, rfl, ?_, rfl⟩
  decide

/-- Claim C2.  For a submission that enters processing without a verdict,
every state observable after a controller operation settles satisfies the
claimed invariant — the verdict is attached iff the status is Completed or
Failed: the record submit persists is Queued without verdict; the Running
update carries no verdict; the success path attaches the verdict with
status Completed; a provisioning rejection propagates before the try, so
the submission stays Running without verdict; and the only realizable
entry into the catch (the success-path repository.update rejecting) occurs
after the verdict was assigned, so the Failed state it persists carries
the verdict. -/
theorem verdictStatusInvariant (req : SubmissionRequest) (newId : String)
    (strategy : ExecutionStrategy) (now : Nat) (sub : Submission)
    (envBehaviour : String → ExecOutcome × Nat) (o : ProcessOutcome)
    (t1 t2 t3 : Nat) (h : sub.verdict = none) :
    verdictStatusConsistent (mkSubmission req newId strategy now) = true ∧
    verdictStatusConsistent (processSubmissionRunning sub t1) = true ∧
    verdictStatusConsistent (processSubmissionFinal sub envBehaviour o t1 t2 t3) = true := by
  refine ⟨rfl, ?_, ?_⟩
  · simp [verdictStatusConsistent, processSubmissionRunning, h]
  · cases o with
    | provisioningFailed msg =>
      simp [verdictStatusConsistent, processSubmissionFinal,
        processSubmissionRunning, h]
    | completed => rfl
    | updateFailed msg => rfl

/-- Witness for C2 at a concrete queued submission, a concrete container
behaviour and the realizable failing outcome (terminal repository.update
rejecting): the persisted Failed state keeps the verdict attached. -/
theorem verdictStatusInvariantWitness :
    sub0.verdict = none ∧
    verdictStatusConsistent
      (processSubmissionFinal sub0 envB0 (ProcessOutcome.updateFailed "db down") 1 2 3)
      = true :=
  ⟨rfl, (verdictStatusInvariant req0 "id-1" strat0 0 sub0 envB0
      (ProcessOutcome.updateFailed "db down") 1 2 3 rfl).2.2⟩

/-- Claim C3 counterexample.  The claim asserts
compareOutput "5\n\n" "5" = false under the judge's comparison mode, but
the whole-string trim removes the trailing newlines of the actual output
first, so the code returns true. -/
theorem compareOutputTrailingNewlinesTrue :
    compareOutput "5\n\n" "5" judgeMode = true := by decide

/-- Claim C3 as amended: any two outputs equal after the judge's
normalization compare as equal, and the three concrete examples evaluate
as the code does — the first two to true as claimed, the third also to
true (not false as claimed), because trimming removes the trailing blank
line before empty-line handling is consulted. -/
theorem compareOutputNormalized :
    (∀ a e : String, normalizeOutput a judgeMode = normalizeOutput e judgeMode →
      compareOutput a e judgeMode = true) ∧
    compareOutput "5\n" "5" judgeMode = true ∧
    compareOutput "5 \n6" "5\n6" judgeMode = true ∧
    compareOutput "5\n\n" "5" judgeMode = true := by
  refine ⟨fun a e h => ?_, by decide, by decide, by decide⟩
  simp [compareOutput, h]

/-- Witness for the amended C3 theorem: the normalization hypothesis holds
for the pair 5 with trailing newline versus bare 5, and the comparison
returns true there. -/
theorem compareOutputNormalizedWitness :
    normalizeOutput "5\n" judgeMode = normalizeOutput "5" judgeMode ∧
    compareOutput "5\n" "5" judgeMode = true :=
  ⟨by decide, compareOutputNormalized.1 "5\n" "5" (by decide)⟩

/-- Claim C5.  selectStrategy implements exactly the five-rule priority
list of the specification (written with its own 100 MiB bound), and every
branch carries a non-empty rationale string. -/
theorem selectStrategyPolicy (analysis : CodeAnalysis) (systemLoad : SystemMetrics) :
    (selectStrategy analysis systemLoad).type = specStrategyType analysis systemLoad ∧
    (selectStrategy analysis systemLoad).reason ≠ "" := by
  have hmem : (100 * 2 ^ 20 : ℕ) = 100 * 1024 * 1024 := by norm_num
  constructor
  · unfold selectStrategy specStrategyType
    rw [hmem]
    split_ifs <;> rfl
  · unfold selectStrategy
    split_ifs <;> decide

/-- Claim C6.  For a request whose code is empty or consists only of
whitespace, submit fails with the validation error before anything is
persisted: the call returns Except.error, so no repository record, no
queue entry and no submission id are produced. -/
theorem submitRejectsWhitespace (st : ControllerState) (req : SubmissionRequest)
    (newId : String) (now : Nat)
    (h : ∀ c ∈ req.code.data, isJsWhitespace c = true) :
    submit st req newId now = Except.error "Code cannot be empty" := by
  unfold submit
  rw [if_pos (Or.inr (trimChars_eq_nil req.code.data h))]

/-- Witness for C6 at the concrete whitespace-only request req0. -/
theorem submitRejectsWhitespaceWitness :
    req0.code = " \n" ∧
    submit st0 req0 "id-1" 0 = Except.error "Code cannot be empty" :=
  ⟨rfl, submitRejectsWhitespace st0 req0 "id-1" 0 (by decide)⟩

/-- Claim C7.  Two-run determinism of the router: analyzeCode applied to
equal inputs yields equal analyses, and selectStrategy applied to equal
inputs yields equal strategies (both are pure functions of their
arguments in the embedding, as in the source, which reads no mutable
state). -/
theorem routerDeterministic (c1 c2 : String) (l1 l2 : SupportedLanguage)
    (a1 a2 : CodeAnalysis) (m1 m2 : SystemMetrics)
    (hc : c1 = c2) (hl : l1 = l2) (ha : a1 = a2) (hm : m1 = m2) :
    analyzeCode c1 l1 = analyzeCode c2 l2 ∧
    selectStrategy a1 m1 = selectStrategy a2 m2 := by
  subst hc; subst hl; subst ha; subst hm
  exact ⟨rfl, rfl⟩

/-- Witness for C7 at concrete inputs. -/
theorem routerDeterministicWitness :
    analyzeCode "console.log(1)" SupportedLanguage.javascript =
      analyzeCode "console.log(1)" SupportedLanguage.javascript ∧
    selectStrategy analysis0 sysm0 = selectStrategy analysis0 sysm0 :=
  routerDeterministic "console.log(1)" "console.log(1)"
    SupportedLanguage.javascript SupportedLanguage.javascript
    analysis0 analysis0 sysm0 sysm0 rfl rfl rfl rfl

/-- Claim C8 counterexample.  The string ((( is not parseable in any of
the supported languages, yet analyzeCode classifies it with
hasUnsafeOperations = false, refuting the claim that unparseable code is
always classified unsafe. -/
theorem unparseableCodeClassifiedSafe :
    (analyzeCode "(((" SupportedLanguage.javascript).hasUnsafeOperations = false := by
  decide

/-- Claim C8 as amended: analyzeCode is a total function (it never
throws), and its hasUnsafeOperations flag equals the purely textual
pattern classification hasUnsafePatterns for every input and language —
the analyzer performs no parsing, so parseability plays no role in the
classification. -/
theorem analyzeCodeNeverThrowsPatternBased (code : String) (lang : SupportedLanguage) :
    (analyzeCode code lang).hasUnsafeOperations = hasUnsafePatterns code := rfl

/-- Claim C9.  runCustomTest leaves the repository and queue untouched,
emits no persistence event, always destroys the environment it created
(the finally branch, covering error outcomes, which arrive as setupFailed
or failing stream behaviours), and uses exactly the resource limits the
regular submission path passes to executeInContainer. -/
theorem customTestFrame (st : ControllerState) (envId : String)
    (o : ExecOutcome) (elapsed : Nat) :
    (runCustomTest st envId o elapsed).2.1 = st ∧
    ControllerEvent.envDestroyed envId ∈ (runCustomTest st envId o elapsed).2.2 ∧
    (∀ e ∈ (runCustomTest st envId o elapsed).2.2, isPersistenceEvent e = false) ∧
    customTestLimits = processSubmissionLimits ∧
    (runCustomTest st envId o elapsed).1 =
      executeInContainer processSubmissionLimits o elapsed := by
  refine ⟨rfl, ?_, ?_, rfl, rfl⟩
  · exact List.mem_cons_of_mem _ (List.mem_cons_self _ _)
  · intro e he
    simp only [runCustomTest, List.mem_cons, List.not_mem_nil, or_false] at he
    rcases he with rfl | rfl
    · rfl
    · rfl

/-- Claim C10.  Judging the empty test-case list yields an unconditional
Accepted verdict with zero passed and total tests, and maxTime/maxMemory
equal to Math.max of no arguments, modelled as the bottom element
(-Infinity). -/
theorem evaluateEmptyAccepted (execFn : String → Except String ExecutionResult) :
    evaluate execFn [] =
      { status := VerdictStatus.Accepted, passedTests := 0, totalTests := 0,
        maxTime := ⊥, maxMemory := ⊥,
        failedTestCase := none, errorMessage := none } := rfl

/-- generateVerdict on a passing prefix followed by one failing result:
the failing result determines status, index and error message, the prefix
determines passedTests, and the maxima range over exactly the executed
results. -/
theorem generateVerdict_fail (results : List TestCaseResult) (f : TestCaseResult)
    (total : Nat) (hpass : ∀ r ∈ results, r.passed = true) (hf : f.passed = false) :
    generateVerdict (results ++ [f]) total =
      { status := f.verdict, passedTests := results.length, totalTests := total,
        maxTime := jsMax ((results ++ [f]).map (fun r => r.executionTime)),
        maxMemory := jsMax ((results ++ [f]).map (fun r => r.memoryUsed)),
        failedTestCase := some f.testCaseNumber, errorMessage := f.error } := by
  have hall : ((results ++ [f]).all (fun r => r.passed)) = false := by
    simp [List.all_append, hf]
  have hfind : ((results ++ [f]).find? (fun r => !r.passed)) = some f := by
    rw [find?_skip_passing results [f] hpass]
    rw [List.find?_cons_of_pos _ (by simp [hf])]
  have hfilter : ((results ++ [f]).filter (fun r => r.passed)) = results := by
    rw [List.filter_append]
    rw [List.filter_eq_self.mpr (by simpa using hpass)]
    simp [hf]
  unfold generateVerdict
  rw [if_neg (by simp [hall]), hfilter, hfind]

/-- Claim C4.  When the first k-1 cases pass and the k-th fails (pre lists
the k-1 passing cases, tcf is the failing case, post the untouched rest),
evaluate executes exactly k cases: the result list is the per-case results
of pre followed by the failing result and has length k = pre.length + 1;
the verdict records failedTestCase k (1-based), the failing case's verdict
kind as status, passedTests k-1, and maxTime/maxMemory as the maxima over
the k results actually run. -/
theorem stopOnFirstFailure (execFn : String → Except String ExecutionResult)
    (pre : List TestCase) (tcf : TestCase) (post : List TestCase)
    (hpre : ∀ tc ∈ pre, casePasses execFn tc = true)
    (hf : casePasses execFn tcf = false) :
    runTests execFn (pre ++ tcf :: post) 1 =
      prefixResults execFn pre 1 ++
        [runTestCase tcf (execFn tcf.input) (pre.length + 1)] ∧
    (runTests execFn (pre ++ tcf :: post) 1).length = pre.length + 1 ∧
    (evaluate execFn (pre ++ tcf :: post)).failedTestCase = some (pre.length + 1) ∧
    (evaluate execFn (pre ++ tcf :: post)).status =
      (runTestCase tcf (execFn tcf.input) (pre.length + 1)).verdict ∧
    (evaluate execFn (pre ++ tcf :: post)).passedTests = pre.length ∧
    (evaluate execFn (pre ++ tcf :: post)).maxTime =
      jsMax ((runTests execFn (pre ++ tcf :: post) 1).map (fun r => r.executionTime)) ∧
    (evaluate execFn (pre ++ tcf :: post)).maxMemory =
      jsMax ((runTests execFn (pre ++ tcf :: post) 1).map (fun r => r.memoryUsed)) := by
  have hnum : 1 + pre.length = pre.length + 1 := Nat.add_comm 1 pre.length
  have hrun : runTests execFn (pre ++ tcf :: post) 1 =
      prefixResults execFn pre 1 ++
        [runTestCase tcf (execFn tcf.input) (pre.length + 1)] := by
    rw [runTests_all_pass execFn pre (tcf :: post) 1 hpre,
      runTests_fail_head execFn tcf post (1 + pre.length) hf, hnum]
  have hfpassed : (runTestCase tcf (execFn tcf.input) (pre.length + 1)).passed = false := by
    rw [runTestCase_passed_indep tcf (execFn tcf.input) (pre.length + 1) 1]
    exact hf
  have hgen : evaluate execFn (pre ++ tcf :: post) =
      { status := (runTestCase tcf (execFn tcf.input) (pre.length + 1)).verdict,
        passedTests := (prefixResults execFn pre 1).length,
        totalTests := (pre ++ tcf :: post).length,
        maxTime := jsMax ((prefixResults execFn pre 1 ++
          [runTestCase tcf (execFn tcf.input) (pre.length + 1)]).map
            (fun r => r.executionTime)),
        maxMemory := jsMax ((prefixResults execFn pre 1 ++
          [runTestCase tcf (execFn tcf.input) (pre.length + 1)]).map
            (fun r => r.memoryUsed)),
        failedTestCase :=
          some (runTestCase tcf (execFn tcf.input) (pre.length + 1)).testCaseNumber,
        errorMessage := (runTestCase tcf (execFn tcf.input) (pre.length + 1)).error } := by
    unfold evaluate
    rw [hrun]
    exact generateVerdict_fail (prefixResults execFn pre 1)
      (runTestCase tcf (execFn tcf.input) (pre.length + 1))
      (pre ++ tcf :: post).length
      (prefixResults_passed execFn pre 1 hpre) hfpassed
  refine ⟨hrun, ?_, ?_, ?_, ?_, ?_, ?_⟩
  · rw [hrun]
    simp [prefixResults_length]
  · rw [hgen]
    simp [runTestCase_number]
  · rw [hgen]
  · rw [hgen]
    simp [prefixResults_length]
  · rw [hgen, hrun]
  · rw [hgen, hrun]

/-- Witness for C4: with the deterministic executor execW and the list
[tcPass, tcFail, tcPass] (the second case fails on expected output), the
hypotheses hold concretely and evaluate stops after two cases with
failedTestCase 2. -/
theorem stopOnFirstFailureWitness :
    casePasses execW tcPass = true ∧
    casePasses execW tcFail = false ∧
    (runTests execW [tcPass, tcFail, tcPass] 1).length = 2 ∧
    (evaluate execW [tcPass, tcFail, tcPass]).failedTestCase = some 2 := by
  have h := stopOnFirstFailure execW [tcPass] tcFail [tcPass]
    (by intro tc htc; simp only [List.mem_singleton] at htc; subst htc; decide)
    (by decide)
  exact ⟨by decide, by decide, h.2.1, h.2.2.1⟩
